import Mathlib

/-!
# Verification of the `widerror` error-record model

Shallow embedding of `src/error.rs`: the `WidError` record, its
classification enums (`Kind`, `Scope`, `RetryMode`, `PassThroughMode`),
the `Message` type, construction (`new`), cause attachment
(`set_source`), `Display` rendering, and the serde-style structured
(JSON-like) serialization contract.

Machine integers are modelled as `Nat`/`Int`; the deserializer enforces
the Rust-side range bounds (`u32`, `u8`, `i64`) explicitly.
-/

set_option maxRecDepth 8000

namespace Widerror

/-- The `Kind` enum of `src/error.rs` (gRPC-style status taxonomy),
constructors in source declaration order.  `repr(i8)` discriminants are
given by `Kind.toI8` below. -/
inductive Kind where
  | Ok
  | Cancelled
  | Unknown
  | InvalidArgument
  | DeadlineExceeded
  | NotFound
  | AlreadyExists
  | PermissionDenied
  | Unauthenticated
  | ResourceExhausted
  | FailedPrecondition
  | Aborted
  | OutOfRange
  | Unimplemented
  | Internal
  | Unavailable
  | DataLoss
deriving DecidableEq

/-- The explicit `repr(i8)` discriminant of each `Kind` variant, exactly
as assigned in `src/error.rs` (`Ok = 0`, ..., `Unauthenticated = 16`,
`ResourceExhausted = 8`, ...). -/
def Kind.toI8 : Kind → Int
  | .Ok => 0
  | .Cancelled => 1
  | .Unknown => 2
  | .InvalidArgument => 3
  | .DeadlineExceeded => 4
  | .NotFound => 5
  | .AlreadyExists => 6
  | .PermissionDenied => 7
  | .Unauthenticated => 16
  | .ResourceExhausted => 8
  | .FailedPrecondition => 9
  | .Aborted => 10
  | .OutOfRange => 11
  | .Unimplemented => 12
  | .Internal => 13
  | .Unavailable => 14
  | .DataLoss => 15

/-- `impl Default for Kind` returns `Kind::Ok`. -/
def Kind.default : Kind := .Ok

/-- The `Scope` enum (`Internal = 0`, `Clientside = 1`, `Serverside = 2`). -/
inductive Scope where
  | Internal
  | Clientside
  | Serverside
deriving DecidableEq

/-- `repr(i8)` discriminants of `Scope`. -/
def Scope.toI8 : Scope → Int
  | .Internal => 0
  | .Clientside => 1
  | .Serverside => 2

/-- `impl Default for Scope` returns `Scope::Internal`. -/
def Scope.default : Scope := .Internal

/-- The `RetryMode` enum (`Unknown = 0`, `Allowed = 1`, `Denied = 2`). -/
inductive RetryMode where
  | Unknown
  | Allowed
  | Denied
deriving DecidableEq

/-- `repr(i8)` discriminants of `RetryMode`. -/
def RetryMode.toI8 : RetryMode → Int
  | .Unknown => 0
  | .Allowed => 1
  | .Denied => 2

/-- `impl Default for RetryMode` returns `RetryMode::Unknown`. -/
def RetryMode.default : RetryMode := .Unknown

/-- The `PassThroughMode` enum (`Auto = 0`, `Should = 1`, `Never = 2`). -/
inductive PassThroughMode where
  | Auto
  | Should
  | Never
deriving DecidableEq

/-- `repr(i8)` discriminants of `PassThroughMode`. -/
def PassThroughMode.toI8 : PassThroughMode → Int
  | .Auto => 0
  | .Should => 1
  | .Never => 2

/-- `impl Default for PassThroughMode` returns `PassThroughMode::Auto`. -/
def PassThroughMode.default : PassThroughMode := .Auto

/-- The `Message` enum: `Default(String)` or `I18n(String)`. -/
inductive Message where
  | Default (s : String)
  | I18n (s : String)
deriving DecidableEq

/-- `impl Default for Message` returns `Message::Default(String::new())`. -/
def Message.default : Message := .Default ""

/-- The `WidError` struct of `src/error.rs`.  Field order matches the
source declaration: `message`, `code : u32`, `name : String`,
`namespace : u32`, `kind`, `scope`, `level : u8`, `retry_mode`,
`pass_through_mode`, `mapping_code : i64`, and the private
`source_error : Option<Box<WidError>>` (`Box` is the identity in this
embedding). -/
inductive WidError where
  | mk (message : Message) (code : Nat) (name : String) (nspace : Nat)
      (kind : Kind) (scope : Scope) (level : Nat) (retry_mode : RetryMode)
      (pass_through_mode : PassThroughMode) (mapping_code : Int)
      (source_error : Option WidError)

def WidError.message : WidError → Message
  | .mk m _ _ _ _ _ _ _ _ _ _ => m

def WidError.code : WidError → Nat
  | .mk _ c _ _ _ _ _ _ _ _ _ => c

def WidError.name : WidError → String
  | .mk _ _ n _ _ _ _ _ _ _ _ => n

/-- The `namespace` field (that word is a Lean keyword, hence `nspace`). -/
def WidError.nspace : WidError → Nat
  | .mk _ _ _ ns _ _ _ _ _ _ _ => ns

def WidError.kind : WidError → Kind
  | .mk _ _ _ _ k _ _ _ _ _ _ => k

def WidError.scope : WidError → Scope
  | .mk _ _ _ _ _ s _ _ _ _ _ => s

def WidError.level : WidError → Nat
  | .mk _ _ _ _ _ _ l _ _ _ _ => l

def WidError.retry_mode : WidError → RetryMode
  | .mk _ _ _ _ _ _ _ r _ _ _ => r

def WidError.pass_through_mode : WidError → PassThroughMode
  | .mk _ _ _ _ _ _ _ _ p _ _ => p

def WidError.mapping_code : WidError → Int
  | .mk _ _ _ _ _ _ _ _ _ mc _ => mc

def WidError.source_error : WidError → Option WidError
  | .mk _ _ _ _ _ _ _ _ _ _ so => so

/-- `#[derive(Default)]` for `WidError`: every field at its type
default. -/
def WidError.default : WidError :=
  .mk Message.default 0 "" 0 Kind.default Scope.default 0 RetryMode.default
    PassThroughMode.default 0 none

/-- The functional-update `WidError { code, message, ..base }` used by
`WidError::new`. -/
def WidError.withCodeMessage : WidError → Nat → Message → WidError
  | .mk _ _ n ns k s l r p mc so, code, message =>
    .mk message code n ns k s l r p mc so

/-- `WidError::new(code, message)`: given code/message, all other fields
from `WidError::default()`. -/
def WidError.new (code : Nat) (message : Message) : WidError :=
  WidError.default.withCodeMessage code message

/-- `WidError::set_source(mut self, e)`: stores `Some(Box::new(e))` into
`source_error` and returns `self`. -/
def WidError.set_source : WidError → WidError → WidError
  | .mk m c n ns k s l r p mc _, e => .mk m c n ns k s l r p mc (some e)

/-- `<WidError as Error>::source`: `Some` of the stored cause when
present, `None` otherwise (the trait-object coercion is the identity in
this embedding). -/
def WidError.source (e : WidError) : Option WidError :=
  match e.source_error with
  | some s => some s
  | none => none

/-- Number of steps the standard `Error::source` accessor can take from
a record before reaching `None`: the cause-chain length. -/
def WidError.sourceChainLen : WidError → Nat
  | .mk _ _ _ _ _ _ _ _ _ _ none => 0
  | .mk _ _ _ _ _ _ _ _ _ _ (some s) => s.sourceChainLen + 1

/-- Lowercase hex digit, for the `\u` escapes of Rust's `Debug` string
formatting. -/
def hexDigitChar (n : Nat) : Char :=
  if n < 10 then Char.ofNat (48 + n) else Char.ofNat (87 + n)

/-- Rust `char::escape_debug` as used by `Debug` for `String` (quote,
backslash, `\n`, `\r`, `\t` escaped; other control characters as
`\u{..}` lowercase hex; printable characters unchanged). -/
def escDebugChar (c : Char) : List Char :=
  if c = '"' then ['\\', '"']
  else if c = '\\' then ['\\', '\\']
  else if c = '\n' then ['\\', 'n']
  else if c = '\r' then ['\\', 'r']
  else if c = '\t' then ['\\', 't']
  else if c.toNat < 32 ∨ c.toNat = 127 then
    if c.toNat < 16 then ['\\', 'u', '\x7b', hexDigitChar c.toNat, '\x7d']
    else ['\\', 'u', '\x7b', hexDigitChar (c.toNat / 16),
      hexDigitChar (c.toNat % 16), '\x7d']
  else [c]

/-- Rust's `Debug` rendering (`{:?}`) of a `String`: the escaped text in
double quotes. -/
def rustDebugString (s : String) : String :=
  "\"" ++ String.mk (s.data.foldr (fun c acc => escDebugChar c ++ acc) []) ++ "\""

/-- `impl Display for Message` writes `{:?}`, the derived `Debug` form:
variant name with the quoted text in parentheses. -/
def Message.display : Message → String
  | .Default s => "Default(" ++ rustDebugString s ++ ")"
  | .I18n s => "I18n(" ++ rustDebugString s ++ ")"

/-- Rust's decimal `Display` of a signed integer. -/
def intDisplay (i : Int) : String :=
  if i < 0 then "-" ++ Nat.repr i.natAbs else Nat.repr i.natAbs

/-- `impl Display for Kind` writes `self.clone() as i8`: the numeric
discriminant, not the variant name. -/
def Kind.display (k : Kind) : String := intDisplay k.toI8

/-- `impl Display for Scope` writes the numeric discriminant. -/
def Scope.display (s : Scope) : String := intDisplay s.toI8

/-- `impl Display for RetryMode` writes the numeric discriminant. -/
def RetryMode.display (r : RetryMode) : String := intDisplay r.toI8

/-- `impl Display for PassThroughMode` writes the numeric discriminant. -/
def PassThroughMode.display (p : PassThroughMode) : String := intDisplay p.toI8

/-- `impl Display for WidError`: the single-line rendering
`code=.., name=.., namespace=.., scope=.., kind=.., level=.., message=..,
retry_mode=.., pass_through_mode=.., mapping_code=.., source_error=(..)`
with the cause rendered recursively inside the parentheses and the empty
string there when `source_error` is `None`. -/
def WidError.render : WidError → String
  | .mk m c n ns k s l r p mc so =>
    "code=" ++ Nat.repr c ++ ", name=" ++ n ++ ", namespace=" ++ Nat.repr ns ++
      ", scope=" ++ s.display ++ ", kind=" ++ k.display ++ ", level=" ++
      Nat.repr l ++ ", message=" ++ m.display ++ ", retry_mode=" ++ r.display ++
      ", pass_through_mode=" ++ p.display ++ ", mapping_code=" ++
      intDisplay mc ++ ", source_error=(" ++
      (match so with
        | some e => e.render
        | none => "") ++ ")"

/-- Fuel-indexed rendering: `none` when the fuel is exhausted before the
cause chain ends.  Used to show the recursion depth `Display` needs is
exactly the cause-chain length. -/
def WidError.renderFuel : Nat → WidError → Option String
  | 0, _ => none
  | fuel + 1, .mk m c n ns k s l r p mc so =>
    (match so with
      | some e => WidError.renderFuel fuel e
      | none => some "").map fun inner =>
      "code=" ++ Nat.repr c ++ ", name=" ++ n ++ ", namespace=" ++
        Nat.repr ns ++ ", scope=" ++ s.display ++ ", kind=" ++ k.display ++
        ", level=" ++ Nat.repr l ++ ", message=" ++ m.display ++
        ", retry_mode=" ++ r.display ++ ", pass_through_mode=" ++ p.display ++
        ", mapping_code=" ++ intDisplay mc ++ ", source_error=(" ++ inner ++ ")"

/-- `N`-fold cause chaining: `chain 0` is `WidError::default()`, and
`chain (n+1)` attaches `chain n` as the cause of a fresh default record
via `set_source`. -/
def chain : Nat → WidError
  | 0 => WidError.default
  | n + 1 => WidError.default.set_source (chain n)

/-- Structured (JSON-like) value tree, the target of the external
serializer (`serde_json` in the tests): null, integer numbers, strings
and objects cover everything `WidError` produces. -/
inductive Json where
  | null
  | num (n : Int)
  | str (s : String)
  | obj (fields : List (String × Json))

/-- First occurrence of a key in a JSON object's field list. -/
def jLookup : List (String × Json) → String → Option Json
  | [], _ => none
  | (k, v) :: rest, key => if k = key then some v else jLookup rest key

theorem jLookup_sizeOf {l : List (String × Json)} {key : String} {v : Json}
    (h : jLookup l key = some v) : sizeOf v < sizeOf l := by
  induction l with
  | nil => simp [jLookup] at h
  | cons kv rest ih =>
    obtain ⟨k', v'⟩ := kv
    by_cases hk : k' = key
    · simp [jLookup, hk] at h
      subst h
      simp only [List.cons.sizeOf_spec, Prod.mk.sizeOf_spec]
      omega
    · simp [jLookup, hk] at h
      have := ih h
      simp only [List.cons.sizeOf_spec, Prod.mk.sizeOf_spec]
      omega

/-- Deserializing a `u32` field: an integer number in `[0, 2^32)`. -/
def u32FromJson : Json → Except String Nat
  | .num n => if 0 ≤ n ∧ n < 4294967296 then .ok n.toNat else .error "invalid u32"
  | _ => .error "expected u32 number"

/-- Deserializing a `u8` field: an integer number in `[0, 2^8)`. -/
def u8FromJson : Json → Except String Nat
  | .num n => if 0 ≤ n ∧ n < 256 then .ok n.toNat else .error "invalid u8"
  | _ => .error "expected u8 number"

/-- Deserializing an `i64` field: an integer number in `[-2^63, 2^63)`. -/
def i64FromJson : Json → Except String Int
  | .num n =>
    if -9223372036854775808 ≤ n ∧ n < 9223372036854775808 then .ok n
    else .error "invalid i64"
  | _ => .error "expected i64 number"

/-- Deserializing a string field. -/
def strFromJson : Json → Except String String
  | .str s => .ok s
  | _ => .error "expected string"

/-- `Serialize_repr` for `Kind`: the integer discriminant, never a name
string. -/
def Kind.toJson (k : Kind) : Json := .num k.toI8

/-- `Deserialize_repr` for `Kind`: exactly the seventeen declared
discriminants decode; any other value is a decode error. -/
def Kind.fromJson : Json → Except String Kind
  | .num 0 => .ok .Ok
  | .num 1 => .ok .Cancelled
  | .num 2 => .ok .Unknown
  | .num 3 => .ok .InvalidArgument
  | .num 4 => .ok .DeadlineExceeded
  | .num 5 => .ok .NotFound
  | .num 6 => .ok .AlreadyExists
  | .num 7 => .ok .PermissionDenied
  | .num 8 => .ok .ResourceExhausted
  | .num 9 => .ok .FailedPrecondition
  | .num 10 => .ok .Aborted
  | .num 11 => .ok .OutOfRange
  | .num 12 => .ok .Unimplemented
  | .num 13 => .ok .Internal
  | .num 14 => .ok .Unavailable
  | .num 15 => .ok .DataLoss
  | .num 16 => .ok .Unauthenticated
  | _ => .error "invalid Kind discriminant"

/-- `Serialize_repr` for `Scope`. -/
def Scope.toJson (s : Scope) : Json := .num s.toI8

/-- `Deserialize_repr` for `Scope`: only `0`, `1`, `2` decode. -/
def Scope.fromJson : Json → Except String Scope
  | .num 0 => .ok .Internal
  | .num 1 => .ok .Clientside
  | .num 2 => .ok .Serverside
  | _ => .error "invalid Scope discriminant"

/-- `Serialize_repr` for `RetryMode`. -/
def RetryMode.toJson (r : RetryMode) : Json := .num r.toI8

/-- `Deserialize_repr` for `RetryMode`. -/
def RetryMode.fromJson : Json → Except String RetryMode
  | .num 0 => .ok .Unknown
  | .num 1 => .ok .Allowed
  | .num 2 => .ok .Denied
  | _ => .error "invalid RetryMode discriminant"

/-- `Serialize_repr` for `PassThroughMode`. -/
def PassThroughMode.toJson (p : PassThroughMode) : Json := .num p.toI8

/-- `Deserialize_repr` for `PassThroughMode`. -/
def PassThroughMode.fromJson : Json → Except String PassThroughMode
  | .num 0 => .ok .Auto
  | .num 1 => .ok .Should
  | .num 2 => .ok .Never
  | _ => .error "invalid PassThroughMode discriminant"

/-- Serde's externally tagged encoding of the `Message` enum:
`{"Default": text}` or `{"I18n": text}`. -/
def Message.toJson : Message → Json
  | .Default s => .obj [("Default", .str s)]
  | .I18n s => .obj [("I18n", .str s)]

/-- Deserializing a `Message`: a single-entry object tagged with the
variant name. -/
def Message.fromJson : Json → Except String Message
  | .obj [(tag, v)] =>
    if tag = "Default" then (strFromJson v).map Message.Default
    else if tag = "I18n" then (strFromJson v).map Message.I18n
    else .error "unknown Message variant"
  | _ => .error "expected Message object"

/-- Serde serialization of `WidError`: an object with the struct's
fields in declaration order; `source_error` is `null` when absent
(serde's convention for `Option::None`) and the recursively serialized
cause when present. -/
def WidError.serialize : WidError → Json
  | .mk m c n ns k s l r p mc so =>
    .obj [("message", m.toJson), ("code", .num c), ("name", .str n),
      ("namespace", .num ns), ("kind", k.toJson), ("scope", s.toJson),
      ("level", .num l), ("retry_mode", r.toJson),
      ("pass_through_mode", p.toJson), ("mapping_code", .num mc),
      ("source_error", match so with
        | none => Json.null
        | some e => e.serialize)]

mutual

/-- Serde deserialization of `WidError`: requires an object carrying
every field (located by key), decodes each field with its typed decoder,
and fails on any missing field, malformed value or unknown enum
discriminant. -/
def deserialize (j : Json) : Except String WidError :=
  match j with
  | .obj fields =>
    match hs : jLookup fields "source_error" with
    | none => .error "missing field source_error"
    | some sv => do
      let so ← deserializeSource sv
      let m ← match jLookup fields "message" with
        | some v => Message.fromJson v
        | none => .error "missing field message"
      let c ← match jLookup fields "code" with
        | some v => u32FromJson v
        | none => .error "missing field code"
      let n ← match jLookup fields "name" with
        | some v => strFromJson v
        | none => .error "missing field name"
      let ns ← match jLookup fields "namespace" with
        | some v => u32FromJson v
        | none => .error "missing field namespace"
      let k ← match jLookup fields "kind" with
        | some v => Kind.fromJson v
        | none => .error "missing field kind"
      let s ← match jLookup fields "scope" with
        | some v => Scope.fromJson v
        | none => .error "missing field scope"
      let l ← match jLookup fields "level" with
        | some v => u8FromJson v
        | none => .error "missing field level"
      let r ← match jLookup fields "retry_mode" with
        | some v => RetryMode.fromJson v
        | none => .error "missing field retry_mode"
      let p ← match jLookup fields "pass_through_mode" with
        | some v => PassThroughMode.fromJson v
        | none => .error "missing field pass_through_mode"
      let mc ← match jLookup fields "mapping_code" with
        | some v => i64FromJson v
        | none => .error "missing field mapping_code"
      pure (.mk m c n ns k s l r p mc so)
  | _ => .error "expected object"
termination_by (sizeOf j, 0)
decreasing_by
  have h1 := jLookup_sizeOf hs
  have h2 : sizeOf (Json.obj fields) = 1 + sizeOf fields := by simp
  exact Prod.Lex.left _ _ (by omega)

/-- Deserializing the `source_error` field: `null` decodes to `None`,
anything else must decode as a full `WidError` and becomes `Some`. -/
def deserializeSource (j : Json) : Except String (Option WidError) :=
  match j with
  | .null => .ok none
  | j' => (deserialize j').map some
termination_by (sizeOf j, 1)
decreasing_by
  exact Prod.Lex.right _ (by omega)

end

/-- The Rust-side typing constraints on a record's numeric fields
(`code`, `namespace : u32`, `level : u8`, `mapping_code : i64`),
recursively down the cause chain.  Every value representable in the Rust
struct satisfies this. -/
def WidError.validB : WidError → Bool
  | .mk _ c _ ns _ _ l _ _ mc so =>
    decide (c < 4294967296) && decide (ns < 4294967296) &&
    decide (l < 256) &&
    decide (-9223372036854775808 ≤ mc ∧ mc < 9223372036854775808) &&
    (match so with
      | none => true
      | some e => e.validB)

/-- Boolean prefix test on character lists (for reasoning about rendered
text). -/
def isPrefixC : List Char → List Char → Bool
  | [], _ => true
  | _ :: _, [] => false
  | a :: as, b :: bs => if a = b then isPrefixC as bs else false

/-- Number of positions of `s` at which the pattern `p` occurs. -/
def occCount (p : List Char) : List Char → Nat
  | [] => 0
  | c :: cs => (if isPrefixC p (c :: cs) then 1 else 0) + occCount p cs

/-- `true` when no nonempty proper suffix of `a` shorter than `p` is a
prefix of `p`: then no occurrence of `p` can straddle the boundary of
`a ++ s`. -/
def safeSplit (p : List Char) : List Char → Bool
  | [] => true
  | c :: cs =>
    (!(isPrefixC (c :: cs) p) || decide (p.length ≤ (c :: cs).length)) &&
      safeSplit p cs

/-- Boolean substring test on character lists. -/
def isInfixC (p : List Char) : List Char → Bool
  | [] => isPrefixC p []
  | c :: cs => isPrefixC p (c :: cs) || isInfixC p cs

/-- The marker opening the parenthesized rendering of a present cause:
`source_error=(` immediately followed by the `code=` that starts the
cause's own rendering.  An absent cause renders as `source_error=()`,
which does not contain this marker. -/
def causeSeg : List Char := "source_error=(code=".data

/-- Number of (non-empty) parenthesized cause segments in a rendered
record: the number of occurrences of `causeSeg`. -/
def causeSegCount (s : String) : Nat := occCount causeSeg s.data

/-- The text a default record's rendering puts before its cause: all its
fields and the opening `source_error=(`. -/
def chainPfx : String :=
  "code=0, name=, namespace=0, scope=0, kind=0, level=0, message=Default(\"\"), retry_mode=0, pass_through_mode=0, mapping_code=0, source_error=("

/-- `chainPfx` extended by the `code=` head of the nested cause
rendering: the chunk each chaining step prepends, cut so that the
`causeSeg` marker lies inside it. -/
def chainQ : List Char := chainPfx.data ++ "code=".data

/-- The record-transforming operations of the public contract:
`set_source` is the only public operation that takes an existing record
and returns a modified one (`new` and `default` build fresh records). -/
inductive PubOp where
  | setSource (e : WidError)

/-- Applying one public operation to a record. -/
def PubOp.apply : WidError → PubOp → WidError
  | r, .setSource e => r.set_source e

/-- Applying a sequence of public operations to a record. -/
def applyOps (r : WidError) (ops : List PubOp) : WidError :=
  ops.foldl PubOp.apply r

/-- C2: `WidError::new(code, message)` returns a record whose `code` and
`message` are the given arguments and whose remaining fields are the
type defaults: `kind = Ok`, `scope = Internal`, `retry_mode = Unknown`,
`pass_through_mode = Auto`, `level = 0`, `mapping_code = 0`,
`name = ""` and `source_error = None`.  `new` is a total function of its
two arguments, so the construction never fails. -/
theorem new_default_completeness (code : Nat) (message : Message) :
    (WidError.new code message).code = code ∧
    (WidError.new code message).message = message ∧
    (WidError.new code message).kind = Kind.Ok ∧
    (WidError.new code message).scope = Scope.Internal ∧
    (WidError.new code message).retry_mode = RetryMode.Unknown ∧
    (WidError.new code message).pass_through_mode = PassThroughMode.Auto ∧
    (WidError.new code message).level = 0 ∧
    (WidError.new code message).mapping_code = 0 ∧
    (WidError.new code message).name = "" ∧
    (WidError.new code message).source_error = none :=
  ⟨rfl, rfl, rfl, rfl, rfl, rfl, rfl, rfl, rfl, rfl⟩

/-- C3: each classification enum variant serializes to exactly the
integer discriminant of the spec table — in particular
`Kind::NotFound ↦ 5` and `Kind::Unauthenticated ↦ 16`, preserving the
historical gap after `ResourceExhausted = 8` — and every variant of
every classification enum serializes to an integer, never to a name
string. -/
theorem enum_discriminant_stability :
    (Kind.toJson .NotFound = Json.num 5 ∧ Kind.toJson .Unauthenticated = Json.num 16) ∧
    (Kind.toJson .Ok = Json.num 0 ∧ Kind.toJson .Cancelled = Json.num 1 ∧
      Kind.toJson .Unknown = Json.num 2 ∧ Kind.toJson .InvalidArgument = Json.num 3 ∧
      Kind.toJson .DeadlineExceeded = Json.num 4 ∧ Kind.toJson .AlreadyExists = Json.num 6 ∧
      Kind.toJson .PermissionDenied = Json.num 7 ∧ Kind.toJson .ResourceExhausted = Json.num 8 ∧
      Kind.toJson .FailedPrecondition = Json.num 9 ∧ Kind.toJson .Aborted = Json.num 10 ∧
      Kind.toJson .OutOfRange = Json.num 11 ∧ Kind.toJson .Unimplemented = Json.num 12 ∧
      Kind.toJson .Internal = Json.num 13 ∧ Kind.toJson .Unavailable = Json.num 14 ∧
      Kind.toJson .DataLoss = Json.num 15) ∧
    (Scope.toJson .Internal = Json.num 0 ∧ Scope.toJson .Clientside = Json.num 1 ∧
      Scope.toJson .Serverside = Json.num 2) ∧
    (RetryMode.toJson .Unknown = Json.num 0 ∧ RetryMode.toJson .Allowed = Json.num 1 ∧
      RetryMode.toJson .Denied = Json.num 2) ∧
    (PassThroughMode.toJson .Auto = Json.num 0 ∧ PassThroughMode.toJson .Should = Json.num 1 ∧
      PassThroughMode.toJson .Never = Json.num 2) ∧
    (∀ k : Kind, ∃ i : Int, Kind.toJson k = Json.num i) ∧
    (∀ s : Scope, ∃ i : Int, Scope.toJson s = Json.num i) ∧
    (∀ r : RetryMode, ∃ i : Int, RetryMode.toJson r = Json.num i) ∧
    (∀ p : PassThroughMode, ∃ i : Int, PassThroughMode.toJson p = Json.num i) :=
  ⟨⟨rfl, rfl⟩,
    ⟨rfl, rfl, rfl, rfl, rfl, rfl, rfl, rfl, rfl, rfl, rfl, rfl, rfl, rfl, rfl⟩,
    ⟨rfl, rfl, rfl⟩, ⟨rfl, rfl, rfl⟩, ⟨rfl, rfl, rfl⟩,
    fun k => ⟨k.toI8, rfl⟩, fun s => ⟨s.toI8, rfl⟩,
    fun r => ⟨r.toI8, rfl⟩, fun p => ⟨p.toI8, rfl⟩⟩

/-- C4: deserializing a `Scope` field from the integer `99` fails with a
decode error; it is not silently coerced to any variant, in particular
not to the default `Internal`. -/
theorem scope_unknown_discriminant_rejected :
    Scope.fromJson (Json.num 99) = Except.error "invalid Scope discriminant" ∧
    ∀ s : Scope, Scope.fromJson (Json.num 99) ≠ Except.ok s := by
  constructor
  · rfl
  · intro s h
    rw [show Scope.fromJson (Json.num 99) = Except.error "invalid Scope discriminant" from rfl] at h
    exact absurd h (by simp)

/-- C8 counterexample: the claim that every publicly reachable record
satisfies `namespace = code / 10000` is false — `WidError::new`
leaves `namespace` at its default `0` whatever the code, so
`new(123456789, _)` has `namespace = 0` while `123456789 / 10000 =
12345`. -/
theorem new_namespace_not_derived_cex :
    (WidError.new 123456789 (Message.Default "x")).nspace = 0 ∧
    123456789 / 10000 = 12345 ∧ (0 : Nat) ≠ 12345 :=
  ⟨rfl, by norm_num, by norm_num⟩

/-- C8 amended: the namespace/code composition is a documented
convention the code does not enforce — `new` stores the default
`namespace = 0` regardless of the code argument, and never derives it by
dividing the code. -/
theorem new_namespace_default (code : Nat) (message : Message) :
    (WidError.new code message).nspace = 0 := rfl

/-- C7 counterexample: `set_source` is not one-shot — calling it again
on a record whose cause is already set replaces (swaps) the stored
cause with the new record. -/
theorem set_source_swaps_existing_cause_cex :
    (((WidError.new 1 (Message.Default "a")).set_source
        (WidError.new 2 (Message.Default "b"))).set_source
        (WidError.new 3 (Message.Default "c"))).source_error =
      some (WidError.new 3 (Message.Default "c")) ∧
    WidError.new 3 (Message.Default "c") ≠ WidError.new 2 (Message.Default "b") := by
  constructor
  · rfl
  · intro h
    injection h with h1 h2
    exact absurd h2 (by norm_num)

/-- C7 amended: once a cause has been set it can never be cleared back
to `None` through the public contract — every public record-transforming
operation (`set_source` is the only one) leaves the cause present —
but `set_source` called again does swap the stored cause. -/
theorem source_never_cleared (r : WidError) (ops : List PubOp)
    (h : r.source_error.isSome = true) :
    ((applyOps r ops).source_error).isSome = true := by
  induction ops generalizing r with
  | nil => exact h
  | cons op rest ih =>
    cases op with
    | setSource e =>
      apply ih
      cases r with
      | mk m c n ns k s l rm p mc so => rfl

/-- Witness for `source_never_cleared` at a concrete record and
operation list. -/
theorem source_never_cleared_witness :
    ((applyOps (WidError.default.set_source WidError.default)
        [PubOp.setSource (WidError.new 7 (Message.I18n "k"))]).source_error).isSome = true :=
  source_never_cleared (WidError.default.set_source WidError.default)
    [PubOp.setSource (WidError.new 7 (Message.I18n "k"))] rfl

/-- C10: `Display` renders the `message` field through the derived
`Debug` form of `Message` — variant name and quoted text, e.g.
`message=Default("this is message")` and `I18n("k")` — never as the bare
text, and that Debug form appears verbatim in the record rendering. -/
theorem message_renders_in_debug_form :
    Message.display (Message.Default "this is message") = "Default(\"this is message\")" ∧
    Message.display (Message.I18n "k") = "I18n(\"k\")" ∧
    (∀ s : String,
      Message.display (Message.Default s) = "Default(" ++ rustDebugString s ++ ")" ∧
      Message.display (Message.I18n s) = "I18n(" ++ rustDebugString s ++ ")") ∧
    isInfixC "message=Default(\"this is message\")".data
      ((WidError.new 123456789 (Message.Default "this is message")).render).data = true := by
  refine ⟨rfl, rfl, fun s => ⟨rfl, rfl⟩, ?_⟩
  decide

/-- C5: `Display` renders the chained test record of `tests/basic.rs` as
the expected single line — every field in the order code, name,
namespace, scope, kind, level, message, retry_mode, pass_through_mode,
mapping_code, classification enums as numeric discriminants, and the
default cause rendered recursively inside parentheses — and that line
begins with `code=123456789, name=, namespace=0, scope=0, kind=0,
level=0, message=`. -/
theorem display_concrete_render :
    ((WidError.new 123456789 (Message.Default "this is message")).set_source
        WidError.default).render =
      "code=123456789, name=, namespace=0, scope=0, kind=0, level=0, message=Default(\"this is message\"), retry_mode=0, pass_through_mode=0, mapping_code=0, source_error=(code=0, name=, namespace=0, scope=0, kind=0, level=0, message=Default(\"\"), retry_mode=0, pass_through_mode=0, mapping_code=0, source_error=())" ∧
    isPrefixC
      "code=123456789, name=, namespace=0, scope=0, kind=0, level=0, message=".data
      (((WidError.new 123456789 (Message.Default "this is message")).set_source
          WidError.default).render).data = true := by
  constructor
  · rfl
  · decide

/-- C9: `new`, `set_source` and `Display` rendering are total functions
of this embedding (they are plain Lean definitions, defined on every
well-typed input), and rendering terminates with recursion depth exactly
the cause-chain length: with fuel `sourceChainLen + 1` the fuel-indexed
renderer produces exactly `render`, while fuel `sourceChainLen` is
already too little. -/
theorem render_terminates_with_chain_depth : ∀ e : WidError,
    WidError.renderFuel (e.sourceChainLen + 1) e = some e.render ∧
    WidError.renderFuel e.sourceChainLen e = none
  | .mk m c n ns k s l r p mc none => ⟨rfl, rfl⟩
  | .mk m c n ns k s l r p mc (some src) => by
    obtain ⟨ih1, ih2⟩ := render_terminates_with_chain_depth src
    constructor
    · show WidError.renderFuel (src.sourceChainLen + 1 + 1) _ = _
      simp [WidError.renderFuel, WidError.render, ih1]
    · show WidError.renderFuel (src.sourceChainLen + 1) _ = none
      simp [WidError.renderFuel, ih2]

theorem isPrefixC_cons_cons (a b : Char) (as bs : List Char) :
    isPrefixC (a :: as) (b :: bs) = if a = b then isPrefixC as bs else false := rfl

theorem isPrefixC_append_ext {p : List Char} :
    ∀ {x : List Char}, isPrefixC p x = true → ∀ s, isPrefixC p (x ++ s) = true := by
  induction p with
  | nil => intro x _ s; rfl
  | cons a as ih =>
    intro x h s
    cases x with
    | nil => simp [isPrefixC] at h
    | cons b bs =>
      rw [List.cons_append, isPrefixC_cons_cons] at *
      by_cases hab : a = b
      · rw [if_pos hab] at h ⊢
        exact ih h s
      · rw [if_neg hab] at h
        simp at h

theorem isPrefixC_append_stuck {p : List Char} :
    ∀ {x : List Char}, isPrefixC p x = false → isPrefixC x p = false →
      ∀ s, isPrefixC p (x ++ s) = false := by
  induction p with
  | nil => intro x hpx _ _; simp [isPrefixC] at hpx
  | cons a as ih =>
    intro x hpx hxp s
    cases x with
    | nil => simp [isPrefixC] at hxp
    | cons b bs =>
      rw [isPrefixC_cons_cons] at hpx
      rw [isPrefixC_cons_cons] at hxp
      rw [List.cons_append, isPrefixC_cons_cons]
      by_cases hab : a = b
      · rw [if_pos hab] at hpx ⊢
        rw [if_pos hab.symm] at hxp
        exact ih hpx hxp s
      · rw [if_neg hab]

theorem isPrefixC_length_eq {x : List Char} :
    ∀ {p : List Char}, isPrefixC x p = true → p.length ≤ x.length →
      isPrefixC p x = true := by
  induction x with
  | nil =>
    intro p h hl
    cases p with
    | nil => rfl
    | cons b bs => simp at hl
  | cons a as ih =>
    intro p h hl
    cases p with
    | nil => rfl
    | cons b bs =>
      rw [isPrefixC_cons_cons] at h ⊢
      by_cases hab : a = b
      · rw [if_pos hab] at h
        rw [if_pos hab.symm]
        exact ih h (by simp at hl; omega)
      · rw [if_neg hab] at h
        simp at h

theorem occCount_cons (p : List Char) (a : Char) (as : List Char) :
    occCount p (a :: as) = (if isPrefixC p (a :: as) then 1 else 0) + occCount p as := rfl

theorem occCount_cons_of_ne {p : List Char} {a : Char} {as : List Char}
    (hne : isPrefixC p (a :: as) = false) : occCount p (a :: as) = occCount p as := by
  rw [occCount_cons, hne]
  simp

theorem occCount_append {p : List Char} :
    ∀ {a : List Char}, safeSplit p a = true →
      ∀ s, occCount p (a ++ s) = occCount p a + occCount p s := by
  intro a
  induction a with
  | nil => intro _ s; simp [occCount]
  | cons c cs ih =>
    intro hsafe s
    have hparts : (isPrefixC (c :: cs) p = false ∨ p.length ≤ (c :: cs).length) ∧
        safeSplit p cs = true := by
      simpa [safeSplit, Bool.and_eq_true, Bool.or_eq_true] using hsafe
    obtain ⟨hcond, hrest⟩ := hparts
    have hpre : isPrefixC p ((c :: cs) ++ s) = isPrefixC p (c :: cs) := by
      cases hx : isPrefixC p (c :: cs) with
      | true => exact isPrefixC_append_ext hx s
      | false =>
        cases hy : isPrefixC (c :: cs) p with
        | false => exact isPrefixC_append_stuck hx hy s
        | true =>
          rcases hcond with hfalse | hlen
          · rw [hy] at hfalse; simp at hfalse
          · rw [isPrefixC_length_eq hy hlen] at hx; simp at hx
    rw [List.cons_append, occCount_cons, occCount_cons, ← List.cons_append, hpre,
      ih hrest s]
    omega

theorem isPrefixC_append_singleton (d : Char) :
    ∀ (p : List Char), d ∉ p → ∀ t, isPrefixC p (t ++ [d]) = isPrefixC p t := by
  intro p
  induction p with
  | nil => intro _ t; rfl
  | cons a as ih =>
    intro hd t
    have had : a ≠ d := fun h => hd (h ▸ List.mem_cons_self a as)
    have hd' : d ∉ as := fun h => hd (List.mem_cons_of_mem a h)
    cases t with
    | nil =>
      show isPrefixC (a :: as) [d] = isPrefixC (a :: as) []
      rw [isPrefixC_cons_cons]
      simp [had, isPrefixC]
    | cons b bs =>
      rw [List.cons_append, isPrefixC_cons_cons, isPrefixC_cons_cons]
      by_cases hab : a = b
      · rw [if_pos hab, if_pos hab]
        exact ih hd' bs
      · rw [if_neg hab, if_neg hab]

theorem occCount_append_singleton {p : List Char} (hp : p ≠ []) (d : Char)
    (hd : d ∉ p) : ∀ t, occCount p (t ++ [d]) = occCount p t := by
  intro t
  induction t with
  | nil =>
    have h1 : isPrefixC p [d] = isPrefixC p [] := isPrefixC_append_singleton d p hd []
    have h2 : isPrefixC p [] = false := by
      cases p with
      | nil => exact absurd rfl hp
      | cons a as => rfl
    show (if isPrefixC p [d] then 1 else 0) + occCount p [] = occCount p []
    rw [h1, h2]
    simp
  | cons c cs ih =>
    rw [List.cons_append, occCount_cons, occCount_cons, ← List.cons_append,
      isPrefixC_append_singleton d p hd (c :: cs), ih]

theorem chain_render_succ (n : Nat) :
    (chain (n + 1)).render.data = chainPfx.data ++ ((chain n).render.data ++ [')']) := rfl

theorem chain_render_cons : ∀ n : Nat,
    (chain n).render.data = 'c' :: 'o' :: 'd' :: 'e' :: '=' :: (chain n).render.data.drop 5
  | 0 => rfl
  | _ + 1 => rfl

theorem occCount_causeSeg_code5 (X : List Char) :
    occCount causeSeg ('c' :: 'o' :: 'd' :: 'e' :: '=' :: X) = occCount causeSeg X := by
  have h1 : isPrefixC causeSeg ('c' :: 'o' :: 'd' :: 'e' :: '=' :: X) = false := rfl
  have h2 : isPrefixC causeSeg ('o' :: 'd' :: 'e' :: '=' :: X) = false := rfl
  have h3 : isPrefixC causeSeg ('d' :: 'e' :: '=' :: X) = false := rfl
  have h4 : isPrefixC causeSeg ('e' :: '=' :: X) = false := rfl
  have h5 : isPrefixC causeSeg ('=' :: X) = false := rfl
  rw [occCount_cons_of_ne h1, occCount_cons_of_ne h2, occCount_cons_of_ne h3,
    occCount_cons_of_ne h4, occCount_cons_of_ne h5]

theorem safeSplit_chainQ : safeSplit causeSeg chainQ = true := by decide

theorem occCount_causeSeg_chainQ : occCount causeSeg chainQ = 1 := by decide

theorem occCount_causeSeg_chain0 : occCount causeSeg (chain 0).render.data = 0 := by decide

theorem rparen_not_mem_causeSeg : ')' ∉ causeSeg := by decide

theorem causeSeg_ne_nil : causeSeg ≠ [] := by decide

/-- C6: for every `N`, chaining the cause attachment `N` times yields a
record whose rendered text contains exactly `N` nested parenthesized
cause segments (occurrences of the `source_error=(code=` marker that
opens the parenthesized rendering of a present cause), and whose
cause-chain traversal via the `Error::source` accessor takes exactly `N`
steps before reaching `None`. -/
theorem chain_depth_preserved (N : Nat) :
    causeSegCount ((chain N).render) = N ∧ (chain N).sourceChainLen = N := by
  induction N with
  | zero => exact ⟨occCount_causeSeg_chain0, rfl⟩
  | succ n ih =>
    obtain ⟨hocc, hlen⟩ := ih
    have hocc' : occCount causeSeg ((chain n).render.data.drop 5) = n := by
      rw [show causeSegCount ((chain n).render) =
          occCount causeSeg (chain n).render.data from rfl, chain_render_cons n,
        occCount_causeSeg_code5] at hocc
      exact hocc
    constructor
    · show occCount causeSeg (chain (n + 1)).render.data = n + 1
      rw [chain_render_succ n, chain_render_cons n]
      have hassoc :
          chainPfx.data ++ (('c' :: 'o' :: 'd' :: 'e' :: '=' ::
              (chain n).render.data.drop 5) ++ [')']) =
            chainQ ++ ((chain n).render.data.drop 5 ++ [')']) := by
        show _ = (chainPfx.data ++ "code=".data) ++ _
        rw [List.append_assoc]
        rfl
      rw [hassoc, occCount_append safeSplit_chainQ, occCount_causeSeg_chainQ,
        occCount_append_singleton causeSeg_ne_nil ')' rparen_not_mem_causeSeg]
      omega
    · show (chain (n + 1)).sourceChainLen = n + 1
      rw [show (chain (n + 1)).sourceChainLen = (chain n).sourceChainLen + 1 from rfl,
        hlen]

theorem u32FromJson_roundtrip {c : Nat} (h : c < 4294967296) :
    u32FromJson (Json.num c) = .ok c := by
  have h0 : (0 : Int) ≤ (c : Int) := Int.natCast_nonneg c
  have h1 : (c : Int) < 4294967296 := by exact_mod_cast h
  simp [u32FromJson, h0, h1]

theorem u8FromJson_roundtrip {l : Nat} (h : l < 256) :
    u8FromJson (Json.num l) = .ok l := by
  have h0 : (0 : Int) ≤ (l : Int) := Int.natCast_nonneg l
  have h1 : (l : Int) < 256 := by exact_mod_cast h
  simp [u8FromJson, h0, h1]

theorem i64FromJson_roundtrip {mc : Int} (h0 : -9223372036854775808 ≤ mc)
    (h1 : mc < 9223372036854775808) : i64FromJson (Json.num mc) = .ok mc := by
  simp [i64FromJson, h0, h1]

theorem kindFromJson_toJson (k : Kind) : Kind.fromJson k.toJson = .ok k := by
  cases k <;> rfl

theorem scopeFromJson_toJson (s : Scope) : Scope.fromJson s.toJson = .ok s := by
  cases s <;> rfl

theorem retryModeFromJson_toJson (r : RetryMode) :
    RetryMode.fromJson r.toJson = .ok r := by
  cases r <;> rfl

theorem passThroughModeFromJson_toJson (p : PassThroughMode) :
    PassThroughMode.fromJson p.toJson = .ok p := by
  cases p <;> rfl

theorem messageFromJson_toJson (m : Message) : Message.fromJson m.toJson = .ok m := by
  cases m <;> rfl

theorem except_bind_ok {α β ε : Type} (a : α) (f : α → Except ε β) :
    (Except.ok a : Except ε α) >>= f = f a := rfl

theorem serialize_obj (e : WidError) : ∃ L, e.serialize = Json.obj L := by
  cases e with
  | mk m c n ns k s l r p mc so =>
    cases so with
    | none =>
      exact ⟨[("message", m.toJson), ("code", .num c), ("name", .str n),
        ("namespace", .num ns), ("kind", k.toJson), ("scope", s.toJson),
        ("level", .num l), ("retry_mode", r.toJson),
        ("pass_through_mode", p.toJson), ("mapping_code", .num mc),
        ("source_error", Json.null)], by simp [WidError.serialize]⟩
    | some e2 =>
      exact ⟨[("message", m.toJson), ("code", .num c), ("name", .str n),
        ("namespace", .num ns), ("kind", k.toJson), ("scope", s.toJson),
        ("level", .num l), ("retry_mode", r.toJson),
        ("pass_through_mode", p.toJson), ("mapping_code", .num mc),
        ("source_error", e2.serialize)], by simp [WidError.serialize]⟩

theorem deserializeSource_obj (L : List (String × Json)) :
    deserializeSource (Json.obj L) = (deserialize (Json.obj L)).map some := by
  simp [deserializeSource]

theorem deserializeSource_serialize {e : WidError}
    (h : deserialize e.serialize = .ok e) :
    deserializeSource e.serialize = .ok (some e) := by
  obtain ⟨L, hL⟩ := serialize_obj e
  rw [hL] at h ⊢
  rw [deserializeSource_obj, h]
  rfl

/-- C1: for every `WidError` record whose numeric fields carry values
representable in the Rust struct's types (`u32`/`u8`/`i64` bounds, down
the cause chain — `validB`), deserializing the result of serializing the
record yields exactly the original record, structurally equal in every
field, whether the `source_error` cause is present or absent. -/
theorem deserialize_serialize_roundtrip : ∀ (e : WidError), e.validB = true →
    deserialize e.serialize = Except.ok e
  | .mk m c n ns k s l r p mc none, h => by
    simp only [WidError.validB, Bool.and_eq_true, decide_eq_true_eq, Bool.and_true] at h
    obtain ⟨⟨⟨hc, hns⟩, hl⟩, hmc⟩ := h
    simp [WidError.serialize, deserialize, deserializeSource, jLookup,
      messageFromJson_toJson, kindFromJson_toJson, scopeFromJson_toJson,
      retryModeFromJson_toJson, passThroughModeFromJson_toJson,
      u32FromJson_roundtrip hc, u32FromJson_roundtrip hns,
      u8FromJson_roundtrip hl, i64FromJson_roundtrip hmc.1 hmc.2, strFromJson,
      except_bind_ok]
  | .mk m c n ns k s l r p mc (some src), h => by
    simp only [WidError.validB, Bool.and_eq_true, decide_eq_true_eq] at h
    obtain ⟨⟨⟨⟨hc, hns⟩, hl⟩, hmc⟩, hsrc⟩ := h
    have ih := deserialize_serialize_roundtrip src hsrc
    have hds := deserializeSource_serialize ih
    simp [WidError.serialize, deserialize, jLookup,
      messageFromJson_toJson, kindFromJson_toJson, scopeFromJson_toJson,
      retryModeFromJson_toJson, passThroughModeFromJson_toJson,
      u32FromJson_roundtrip hc, u32FromJson_roundtrip hns,
      u8FromJson_roundtrip hl, i64FromJson_roundtrip hmc.1 hmc.2, strFromJson,
      except_bind_ok, hds]

/-- Witness for `deserialize_serialize_roundtrip`: the chained record of
`tests/basic.rs`, which has a present cause (whose own cause is absent),
round-trips. -/
theorem deserialize_serialize_roundtrip_witness :
    ((WidError.new 123456789 (Message.Default "this is message")).set_source
        WidError.default).validB = true ∧
    deserialize ((WidError.new 123456789 (Message.Default "this is message")).set_source
        WidError.default).serialize =
      Except.ok ((WidError.new 123456789 (Message.Default "this is message")).set_source
        WidError.default) :=
  ⟨by decide, deserialize_serialize_roundtrip _ (by decide)⟩

end Widerror
